import Mathlib

/-!
Verification development for the multi-calendar notification bot.

The definitions below are a shallow embedding of the Python sources:

* `src/app/database.py`   — `EventState`, `SeenEvent` (the tracked-record row).
* `src/app/utils.py`      — `EventStatus`, `build_message`, `format_event`.
* `src/app/notifier_worker.py` — `NotifierWorker.check_and_notify` (the poll
  tick), `NotifierWorker.send_event_notification`, and
  `NotifierWorker._auto_start_event` (the deferred auto-start job).
* `src/app/telegram_bot.py` — `TelegramBot.confirm_callback`,
  `TelegramBot.notify_callback`.
* `src/app/config.py`     — `NOTIFY_INTERVALS` (default configuration value).
* `src/app/google_calendar.py` — the event fingerprint
  (`hashlib.md5(f"{id}_{start}").hexdigest()[:16]`); MD5 itself is embedded
  from RFC 1321, which is what `hashlib.md5` implements.

Instants are modelled as integer seconds (timezone conversion keeps the
instant, so `astimezone` is the identity here).  The Telegram delivery sink
and the scheduler are external collaborators: a send either succeeds or
raises (parameter `sendOk`), an edit either succeeds, fails with the
"Message is not modified" `BadRequest`, or fails with another `BadRequest`
(`EditResult`), and scheduled one-shot jobs are recorded as `Job` values.
Session semantics of SQLAlchemy are modelled explicitly: mutations become
visible in the committed store only if the code path reaches
`session.commit()`; an exception before the commit leaves the durable store
unchanged (close-without-commit rolls back).
-/

namespace CalendarBot

/-- `database.EventState`: the five states of a tracked record. -/
inductive EventState
  | NEW
  | ANNOUNCED
  | WAITING
  | CONFIRMED
  | STARTED
deriving DecidableEq, Repr

/-- A row of the `seen_events` table (`database.SeenEvent`). -/
structure SeenEvent where
  event_id : String
  start : Int
  state : EventState
  message_id : Option Nat := none
  message_template : String := ""
  next_notify_at : Option Int := none
deriving DecidableEq, Repr

/-- `utils.EventStatus`: the status header variants of outbound messages. -/
inductive EventStatus
  | ANNOUNCED
  | SOON
  | STARTED
  | CONFIRMED
deriving DecidableEq, Repr

/-- `utils.EventStatus.header`: icon plus bold status text. -/
def statusHeader : EventStatus → String
  | .ANNOUNCED => "⏰ <b>Событие</b>"
  | .SOON      => "⚡ <b>Скоро событие</b>"
  | .STARTED   => "🆘 <b>Событие началось</b>"
  | .CONFIRMED => "🎯 <b>Событие подтверждено</b>"

/-- `utils.build_message`: header, blank line, body template. -/
def build_message (status : EventStatus) (template : String) : String :=
  statusHeader status ++ "\n\n" ++ template

/-- An event dict as produced by the calendar source
(`google_calendar.list_events_between` plus the `calendar_name` added by
`multicalendar.list_all_events`).  `ev_hash`/`start` are `Option`s because
the worker tests them for Python falsiness before use. -/
structure CalEvent where
  ev_hash : Option String := none
  start : Option Int := none
  calendar_name : String := ""
  summary : String := ""
deriving DecidableEq, Repr

/-- `utils.format_event`, abstracted to the part the worker stores: the
event line rendered as monospace.  The date/weekday formatting of the
source is not inspected by any property proved here. -/
def format_event (ev : CalEvent) : String :=
  "<code>" ++ ev.summary ++ "</code>"

/-- Shorthand for a well-formed calendar event (hash and start present). -/
def mkEvent (h : String) (st : Int) (cn sm : String) : CalEvent :=
  { ev_hash := some h, start := some st, calendar_name := cn, summary := sm }

/-- The durable store of tracked records (the `seen_events` table). -/
abbrev Store := List SeenEvent

/-- `session.query(SeenEvent).get(h)`: look up a record by primary key. -/
def findRecord (s : Store) (h : String) : Option SeenEvent :=
  s.find? (fun r => r.event_id = h)

/-- Write a mutated record back over the row with the same primary key. -/
def setRecord (s : Store) (r : SeenEvent) : Store :=
  s.map (fun x => if x.event_id = r.event_id then r else x)

/-- An outbound `bot.send_message` call: which record it is for, its status
header, its full text, and the callback data of its inline buttons (empty
when `with_buttons` is false). -/
structure SendOp where
  event_id : String
  status : EventStatus
  text : String
  buttons : List String
deriving DecidableEq, Repr

/-- The two inline controls attached by `send_event_notification` when
`with_buttons` is true: "🔔 Уведомить" (request custom reminder) and
"✅ Подтвердить" (acknowledge). -/
def eventButtons (h : String) : List String :=
  ["notify:" ++ h, "confirm:" ++ h]

/-- A one-shot job placed on the APScheduler (`scheduler.add_job` with a
`date` trigger): when it runs and for which record. -/
structure Job where
  run_date : Int
  event_id : String
deriving DecidableEq, Repr

/-- Line 110 of `check_and_notify`: the stored message body — calendar
name header plus the formatted event line. -/
def messageTemplate (ev : CalEvent) : String :=
  "👤 <u><b>" ++ ev.calendar_name ++ "</b></u>\n" ++ format_event ev

/-- Lines 112–119 of `check_and_notify`: the record created on first
observation of a fingerprint. -/
def freshRecord (h : String) (start_dt : Int) (template : String) : SeenEvent :=
  { event_id := h, start := start_dt, state := EventState.NEW,
    message_template := template }

/-- Lines 124–132 of `check_and_notify`: `start <= now` and not yet
`STARTED` — mark `STARTED` (before the send), send the "started"
notification without buttons, write the message id back.  A failed send
raises (`none`). -/
def startedBranch (sendOk : String → Bool) (pending : Store)
    (sends : List SendOp) (jobs : List Job) (mid : Nat) (h : String)
    (record : SeenEvent) : Option (Store × List SendOp × List Job × Nat) :=
  let record := { record with state := EventState.STARTED }
  if sendOk h then
    let op : SendOp :=
      ⟨h, EventStatus.STARTED,
       build_message EventStatus.STARTED record.message_template, []⟩
    let record := { record with message_id := some mid }
    some (setRecord pending record, sends ++ [op], jobs, mid + 1)
  else none

/-- Lines 134–148 of `check_and_notify`: a `NEW` record is announced with
both controls and the one-shot auto-start job is armed at the event's
start; any other state passes through unchanged. -/
def announceStep (sendOk : String → Bool) (sends : List SendOp)
    (jobs : List Job) (mid : Nat) (h : String) (start_dt : Int)
    (record : SeenEvent) :
    Option (SeenEvent × List SendOp × List Job × Nat) :=
  if record.state = EventState.NEW then
    let record := { record with state := EventState.ANNOUNCED }
    if sendOk h then
      let op : SendOp :=
        ⟨h, EventStatus.ANNOUNCED,
         build_message EventStatus.ANNOUNCED record.message_template,
         eventButtons h⟩
      let record := { record with message_id := some mid }
      some (record, sends ++ [op], jobs ++ [⟨start_dt, h⟩], mid + 1)
    else none
  else some (record, sends, jobs, mid)

/-- Lines 150–158 of `check_and_notify`: a `WAITING` record with a due
`next_notify_at` gets the follow-up notification with both controls and
its `next_notify_at` cleared; everything else passes through unchanged. -/
def waitingStep (now : Int) (sendOk : String → Bool) (sends : List SendOp)
    (jobs : List Job) (mid : Nat) (h : String) (record : SeenEvent) :
    Option (SeenEvent × List SendOp × List Job × Nat) :=
  match record.state, record.next_notify_at with
  | EventState.WAITING, some t =>
    if now ≥ t then
      if sendOk h then
        let op : SendOp :=
          ⟨h, EventStatus.SOON,
           build_message EventStatus.SOON record.message_template,
           eventButtons h⟩
        let record :=
          { record with message_id := some mid, next_notify_at := none }
        some (record, sends ++ [op], jobs, mid + 1)
      else none
    else some (record, sends, jobs, mid)
  | _, _ => some (record, sends, jobs, mid)

/-- One iteration of the `for ev in all_events` loop of
`NotifierWorker.check_and_notify`.  The accumulator carries the pending
(in-session) store, the sends and scheduler jobs performed so far, and the
next Telegram message id.  `sendOk` tells whether the outbound send for a
given record succeeds; a failed send raises, which aborts the whole loop:
that is the `none` result. -/
def processEvent (now : Int) (sendOk : String → Bool)
    (acc : Store × List SendOp × List Job × Nat) (ev : CalEvent) :
    Option (Store × List SendOp × List Job × Nat) :=
  let (pending, sends, jobs, mid) := acc
  match ev.ev_hash with
  | none => some acc
  | some h =>
    if h = "" then some acc
    else
      match ev.start with
      | none => some acc
      | some start_dt =>
        let found := findRecord pending h
        let record :=
          match found with
          | some r => r
          | none => freshRecord h start_dt (messageTemplate ev)
        let pending :=
          match found with
          | some _ => pending
          | none => pending ++ [record]
        if record.state = EventState.CONFIRMED then
          some (pending, sends, jobs, mid)
        else if start_dt ≤ now ∧ record.state ≠ EventState.STARTED then
          startedBranch sendOk pending sends jobs mid h record
        else
          match announceStep sendOk sends jobs mid h start_dt record with
          | none => none
          | some (record, sends, jobs, mid) =>
            match waitingStep now sendOk sends jobs mid h record with
            | none => none
            | some (record, sends, jobs, mid) =>
              some (setRecord pending record, sends, jobs, mid)

/-- The event loop of `check_and_notify`: fold `processEvent` over the
fetched events, stopping (with the sends and jobs performed so far) when an
event's processing raises. -/
def goTick (now : Int) (sendOk : String → Bool) :
    Store × List SendOp × List Job × Nat → List CalEvent →
    Option Store × List SendOp × List Job
  | acc, [] => (some acc.1, acc.2.1, acc.2.2.1)
  | acc, ev :: rest =>
    match processEvent now sendOk acc ev with
    | some acc' => goTick now sendOk acc' rest
    | none => (none, acc.2.1, acc.2.2.1)

/-- Result of one poll tick: the committed store, the outbound sends, the
scheduler jobs added, and whether the tick was aborted by an exception. -/
structure TickResult where
  store : Store
  sends : List SendOp
  jobs : List Job
  aborted : Bool
deriving DecidableEq, Repr

/-- `NotifierWorker.check_and_notify`, given the events fetched for the
current window.  If the loop raises, `session.commit()` is never reached,
so the durable store stays as it was (`session.close()` without a commit
rolls back); the sends and scheduler jobs already performed stand. -/
def check_and_notify (now : Int) (sendOk : String → Bool)
    (store0 : Store) (events : List CalEvent) : TickResult :=
  match goTick now sendOk (store0, [], [], 0) events with
  | (some s, sends, jobs) => ⟨s, sends, jobs, false⟩
  | (none, sends, jobs) => ⟨store0, sends, jobs, true⟩

/-- Outcome of one Telegram edit call (`edit_message_text` /
`edit_message_reply_markup`): success, the `BadRequest` whose text contains
"Message is not modified", or any other `BadRequest`. -/
inductive EditResult
  | ok
  | errNotModified
  | errOther
deriving DecidableEq, Repr

/-- Result of a handler that edits an existing message: the committed
store, how many edit calls were attempted, and whether an exception
propagated out of the handler. -/
structure EditHandlerResult where
  store : Store
  editsAttempted : Nat
  raised : Bool
deriving DecidableEq, Repr

/-- `NotifierWorker._auto_start_event`: the deferred one-shot job armed at
the event's start instant.  It re-reads the record; a missing record or a
record already `CONFIRMED`/`STARTED` is left alone.  Otherwise it edits the
message text and strips the reply markup — each edit swallowing only the
"Message is not modified" `BadRequest` — and then marks the record
`STARTED` and commits. -/
def auto_start_event (editText editMarkup : EditResult)
    (store : Store) (event_id : String) : EditHandlerResult :=
  match findRecord store event_id with
  | none => ⟨store, 0, false⟩
  | some record =>
    if record.state = EventState.CONFIRMED ∨ record.state = EventState.STARTED then
      ⟨store, 0, false⟩
    else
      match editText with
      | EditResult.errOther => ⟨store, 1, true⟩
      | _ =>
        match editMarkup with
        | EditResult.errOther => ⟨store, 2, true⟩
        | _ =>
          ⟨setRecord store { record with state := EventState.STARTED }, 2, false⟩

/-- `TelegramBot.confirm_callback`: the acknowledge action.  A missing
record returns before any edit.  Otherwise the in-session record is set to
`CONFIRMED`, the message text and then the reply markup are edited — with
NO handler for `BadRequest`, so any edit failure (including "Message is not
modified") propagates and the commit is skipped. -/
def confirm_callback (editText editMarkup : EditResult)
    (store : Store) (ev_hash : String) : EditHandlerResult :=
  match findRecord store ev_hash with
  | none => ⟨store, 0, false⟩
  | some record =>
    let record := { record with state := EventState.CONFIRMED }
    match editText with
    | EditResult.ok =>
      match editMarkup with
      | EditResult.ok => ⟨setRecord store record, 2, false⟩
      | _ => ⟨store, 2, true⟩
    | _ => ⟨store, 1, true⟩

/-- `config.NOTIFY_INTERVALS` under the default configuration
(`os.getenv("NOTIFY_INTERVALS", "60,30,15,10,5,0")` parsed as ints). -/
def NOTIFY_INTERVALS : List Int := [60, 30, 15, 10, 5, 0]

/-- `max(int((record.start - now).total_seconds() // 60), 0)` — Python `//`
is floor division. -/
def minutes_left (start now : Int) : Int :=
  max ((start - now).fdiv 60) 0

/-- `[m for m in NOTIFY_INTERVALS if m == 0 or m <= minutes_left]`. -/
def valid_intervals (intervals : List Int) (ml : Int) : List Int :=
  intervals.filter (fun m => m = 0 ∨ m ≤ ml)

/-- Result of `TelegramBot.notify_callback`: the keyboard the message's
controls were replaced with (callback data, top to bottom; `none` when no
edit was made), whether the "Событие уже начинается" alert was shown, and
the run date of the scheduled control-restore job, if one was armed. -/
structure NotifyResult where
  keyboard : Option (List String)
  alerted : Bool
  restoreJob : Option Int
deriving DecidableEq, Repr

/-- `TelegramBot.notify_callback`: the "request custom reminder" action.
A missing record is a no-op.  Otherwise the offered points are the
configured intervals `m` with `m == 0 or m <= minutes_left`; if none
qualify the user gets an alert and nothing else happens; otherwise the
controls are replaced with one button per point and a restore job is armed
`BUTTON_TTL` seconds from now. -/
def notify_callback (intervals : List Int) (button_ttl : Int) (now : Int)
    (store : Store) (ev_hash : String) : NotifyResult :=
  match findRecord store ev_hash with
  | none => ⟨none, false, none⟩
  | some record =>
    let ml := minutes_left record.start now
    let valid := valid_intervals intervals ml
    if valid = [] then ⟨none, true, none⟩
    else
      let kb := valid.map (fun m => "notify_set:" ++ ev_hash ++ ":" ++ toString m)
      ⟨some kb, false, some (now + button_ttl)⟩

/-! ### Store lemmas -/

lemma findRecord_eventId {s : Store} {h : String} {r : SeenEvent}
    (hf : findRecord s h = some r) : r.event_id = h := by
  have := List.find?_some hf
  simpa using this

lemma findRecord_append {s l : Store} {h : String} {r : SeenEvent}
    (hf : findRecord s h = some r) : findRecord (s ++ l) h = some r := by
  unfold findRecord at hf ⊢
  rw [List.find?_append, hf]
  rfl

lemma findRecord_cons (x : SeenEvent) (xs : Store) (h : String) :
    findRecord (x :: xs) h
      = if x.event_id = h then some x else findRecord xs h := by
  by_cases hx : x.event_id = h
  · rw [if_pos hx]
    exact List.find?_cons_of_pos _ (by simpa using hx)
  · rw [if_neg hx]
    exact List.find?_cons_of_neg _ (by simpa using hx)

lemma setRecord_cons (x : SeenEvent) (xs : Store) (r' : SeenEvent) :
    setRecord (x :: xs) r'
      = (if x.event_id = r'.event_id then r' else x) :: setRecord xs r' := by
  simp [setRecord]

lemma findRecord_append_none {s l : Store} {h : String}
    (hf : findRecord s h = none) : findRecord (s ++ l) h = findRecord l h := by
  unfold findRecord at hf ⊢
  rw [List.find?_append, hf]
  rfl

lemma findRecord_setRecord_ne {s : Store} {r' : SeenEvent} {h : String}
    (hne : r'.event_id ≠ h) : findRecord (setRecord s r') h = findRecord s h := by
  induction s with
  | nil => rfl
  | cons x xs ih =>
    rw [setRecord_cons, findRecord_cons, findRecord_cons]
    by_cases hxr : x.event_id = r'.event_id
    · rw [if_pos hxr, if_neg hne, if_neg (hxr ▸ hne), ih]
    · rw [if_neg hxr]
      by_cases hx : x.event_id = h
      · rw [if_pos hx, if_pos hx]
      · rw [if_neg hx, if_neg hx, ih]

lemma findRecord_setRecord_self {s : Store} {h : String} {r₀ r : SeenEvent}
    (hf : findRecord s h = some r₀) (hr : r.event_id = h) :
    findRecord (setRecord s r) h = some r := by
  induction s with
  | nil => simp [findRecord] at hf
  | cons x xs ih =>
    rw [setRecord_cons, findRecord_cons]
    by_cases hx : x.event_id = h
    · have hxr : x.event_id = r.event_id := by rw [hx, hr]
      rw [if_pos hxr, if_pos hr]
    · have hxr : ¬ x.event_id = r.event_id := by rw [hr]; exact hx
      have hf' : findRecord xs h = some r₀ := by
        rw [findRecord_cons, if_neg hx] at hf
        exact hf
      rw [if_neg hxr, if_neg hx]
      exact ih hf'

/-! ### C10: events without a hash or a start are skipped entirely -/

lemma processEvent_skip (now : Int) (f : String → Bool)
    (acc : Store × List SendOp × List Job × Nat) (ev : CalEvent)
    (hskip : ev.ev_hash = none ∨ ev.start = none) :
    processEvent now f acc ev = some acc := by
  obtain ⟨p, sends, jobs, mid⟩ := acc
  rcases hh : ev.ev_hash with _ | h
  · simp [processEvent, hh]
  · rcases hskip with hskip | hskip
    · rw [hh] at hskip; cases hskip
    · by_cases he : h = ""
      · simp [processEvent, hh, he]
      · simp [processEvent, hh, he, hskip]

/-- C10.  A calendar event that lacks an `ev_hash` value or lacks a `start`
value is skipped entirely by the poll tick: the tick over `ev :: rest` is
the tick over `rest` — no record is created for it, nothing is sent for it,
and the store is untouched on its account. -/
theorem tick_skips_events_without_hash_or_start
    (now : Int) (f : String → Bool) (s : Store) (ev : CalEvent)
    (rest : List CalEvent) (hskip : ev.ev_hash = none ∨ ev.start = none) :
    check_and_notify now f s (ev :: rest) = check_and_notify now f s rest := by
  unfold check_and_notify
  rw [show goTick now f (s, [], [], 0) (ev :: rest)
        = goTick now f (s, [], [], 0) rest from ?_]
  rw [goTick, processEvent_skip now f _ ev hskip]

/-- Witness for C10 at a concrete input: a tick over one start-less event
equals the empty tick. -/
theorem tick_skips_events_without_hash_or_start_witness :
    check_and_notify 0 (fun _ => true) []
        [{ ev_hash := some "a", start := none, calendar_name := "c", summary := "x" }]
      = check_and_notify 0 (fun _ => true) [] [] :=
  tick_skips_events_without_hash_or_start 0 (fun _ => true) [] _ [] (Or.inr rfl)

/-! ### Terminal states are inert under the polling path -/

lemma startedBranch_frame {f : String → Bool} {pending : Store}
    {sends : List SendOp} {jobs : List Job} {mid : Nat} {h : String}
    {record : SeenEvent} {P : Store} {S : List SendOp} {J : List Job} {M : Nat}
    (hres : startedBranch f pending sends jobs mid h record = some (P, S, J, M)) :
    (∃ rec', rec'.event_id = record.event_id ∧ P = setRecord pending rec')
      ∧ ∀ op ∈ S, op ∈ sends ∨ op.event_id = h := by
  unfold startedBranch at hres
  split at hres
  · simp only [Option.some.injEq, Prod.mk.injEq] at hres
    obtain ⟨rfl, rfl, rfl, rfl⟩ := hres
    refine ⟨⟨{ record with state := EventState.STARTED, message_id := some mid },
      rfl, rfl⟩, fun op hop => ?_⟩
    rcases List.mem_append.1 hop with h1 | h1
    · exact Or.inl h1
    · simp only [List.mem_singleton] at h1
      subst h1
      exact Or.inr rfl
  · cases hres

lemma announceStep_frame {f : String → Bool} {sends : List SendOp}
    {jobs : List Job} {mid : Nat} {h : String} {st : Int} {record rec' : SeenEvent}
    {S : List SendOp} {J : List Job} {M : Nat}
    (hres : announceStep f sends jobs mid h st record = some (rec', S, J, M)) :
    rec'.event_id = record.event_id ∧ ∀ op ∈ S, op ∈ sends ∨ op.event_id = h := by
  unfold announceStep at hres
  split at hres
  · split at hres
    · simp only [Option.some.injEq, Prod.mk.injEq] at hres
      obtain ⟨rfl, rfl, rfl, rfl⟩ := hres
      refine ⟨rfl, fun op hop => ?_⟩
      rcases List.mem_append.1 hop with h1 | h1
      · exact Or.inl h1
      · simp only [List.mem_singleton] at h1
        subst h1
        exact Or.inr rfl
    · cases hres
  · simp only [Option.some.injEq, Prod.mk.injEq] at hres
    obtain ⟨rfl, rfl, rfl, rfl⟩ := hres
    exact ⟨rfl, fun op hop => Or.inl hop⟩

lemma waitingStep_frame {now : Int} {f : String → Bool} {sends : List SendOp}
    {jobs : List Job} {mid : Nat} {h : String} {record rec' : SeenEvent}
    {S : List SendOp} {J : List Job} {M : Nat}
    (hres : waitingStep now f sends jobs mid h record = some (rec', S, J, M)) :
    rec'.event_id = record.event_id ∧ ∀ op ∈ S, op ∈ sends ∨ op.event_id = h := by
  unfold waitingStep at hres
  split at hres
  · split at hres
    · split at hres
      · simp only [Option.some.injEq, Prod.mk.injEq] at hres
        obtain ⟨rfl, rfl, rfl, rfl⟩ := hres
        refine ⟨rfl, fun op hop => ?_⟩
        rcases List.mem_append.1 hop with h1 | h1
        · exact Or.inl h1
        · simp only [List.mem_singleton] at h1
          subst h1
          exact Or.inr rfl
      · cases hres
    · simp only [Option.some.injEq, Prod.mk.injEq] at hres
      obtain ⟨rfl, rfl, rfl, rfl⟩ := hres
      exact ⟨rfl, fun op hop => Or.inl hop⟩
  · simp only [Option.some.injEq, Prod.mk.injEq] at hres
    obtain ⟨rfl, rfl, rfl, rfl⟩ := hres
    exact ⟨rfl, fun op hop => Or.inl hop⟩

/-- Processing any one calendar event leaves a record that is already
`CONFIRMED` or `STARTED` untouched and adds no send for it. -/
lemma processEvent_terminal
    (now : Int) (f : String → Bool) (p : Store) (sends : List SendOp)
    (jobs : List Job) (mid : Nat) (ev : CalEvent) (hid : String) (r : SeenEvent)
    (hfind : findRecord p hid = some r)
    (hterm : r.state = EventState.CONFIRMED ∨ r.state = EventState.STARTED)
    (p' : Store) (sends' : List SendOp) (jobs' : List Job) (mid' : Nat)
    (hres : processEvent now f (p, sends, jobs, mid) ev
      = some (p', sends', jobs', mid')) :
    findRecord p' hid = some r
      ∧ ∀ op ∈ sends', op ∈ sends ∨ op.event_id ≠ hid := by
  obtain ⟨eh, est, cn, sm⟩ := ev
  rcases eh with _ | h
  · simp only [processEvent, Option.some.injEq, Prod.mk.injEq] at hres
    obtain ⟨rfl, rfl, rfl, rfl⟩ := hres
    exact ⟨hfind, fun op hop => Or.inl hop⟩
  · by_cases hem : h = ""
    · subst hem
      simp only [processEvent, if_pos rfl, Option.some.injEq, Prod.mk.injEq] at hres
      obtain ⟨rfl, rfl, rfl, rfl⟩ := hres
      exact ⟨hfind, fun op hop => Or.inl hop⟩
    · rcases est with _ | st
      · simp only [processEvent, if_neg hem, Option.some.injEq, Prod.mk.injEq] at hres
        obtain ⟨rfl, rfl, rfl, rfl⟩ := hres
        exact ⟨hfind, fun op hop => Or.inl hop⟩
      · by_cases heq : h = hid
        · -- the processed event is our record
          subst heq
          rcases hterm with hterm | hterm
          · -- CONFIRMED: skipped before any branch
            simp only [processEvent, if_neg hem, hfind, if_pos hterm,
              Option.some.injEq, Prod.mk.injEq] at hres
            obtain ⟨rfl, rfl, rfl, rfl⟩ := hres
            exact ⟨hfind, fun op hop => Or.inl hop⟩
          · -- STARTED: every branch passes it through unchanged
            have ha : announceStep f sends jobs mid h st r
                = some (r, sends, jobs, mid) := by
              unfold announceStep
              rw [if_neg (by rw [hterm]; exact fun hx => EventState.noConfusion hx)]
            have hw : waitingStep now f sends jobs mid h r
                = some (r, sends, jobs, mid) := by
              unfold waitingStep
              rcases hnn : r.next_notify_at with _ | t <;> rw [hterm]
            have hconf' : ¬ r.state = EventState.CONFIRMED := by
              rw [hterm]; exact fun hx => EventState.noConfusion hx
            have hcond : ¬ (st ≤ now ∧ r.state ≠ EventState.STARTED) := by
              rintro ⟨-, hx⟩; exact hx hterm
            simp only [processEvent, if_neg hem, hfind, if_neg hconf',
              if_neg hcond, ha, hw, Option.some.injEq, Prod.mk.injEq] at hres
            obtain ⟨rfl, rfl, rfl, rfl⟩ := hres
            exact ⟨findRecord_setRecord_self hfind (findRecord_eventId hfind),
              fun op hop => Or.inl hop⟩
        · -- a different fingerprint: our record is framed out
          have tagged : ∀ (S : List SendOp),
              (∀ op ∈ S, op ∈ sends ∨ op.event_id = h) →
              ∀ op ∈ S, op ∈ sends ∨ op.event_id ≠ hid := by
            intro S hS op hop
            rcases hS op hop with h1 | h1
            · exact Or.inl h1
            · exact Or.inr (h1 ▸ heq)
          rcases hfound : findRecord p h with _ | r₂
          · -- a fresh record keyed by h is created and appended
            simp only [processEvent, freshRecord, if_neg hem, hfound, ne_eq,
              reduceCtorEq, not_false_eq_true, and_true, if_false,
              ite_false] at hres
            by_cases hnow : st ≤ now
            · simp only [if_pos hnow] at hres
              have hfr := startedBranch_frame hres
              obtain ⟨⟨rec1, hrec1, rfl⟩, hS⟩ := hfr
              refine ⟨?_, tagged _ hS⟩
              rw [findRecord_setRecord_ne (by rw [hrec1]; exact heq)]
              exact findRecord_append hfind
            · simp only [if_neg hnow] at hres
              split at hres
              · cases hres
              · rename_i rec1 S1 J1 M1 hX
                split at hres
                · cases hres
                · rename_i rec2 S2 J2 M2 hY
                  have hfr1 := announceStep_frame hX
                  have hfr2 := waitingStep_frame hY
                  simp only [Option.some.injEq, Prod.mk.injEq] at hres
                  obtain ⟨rfl, rfl, rfl, rfl⟩ := hres
                  refine ⟨?_, fun op hop => ?_⟩
                  · rw [findRecord_setRecord_ne
                      (by rw [hfr2.1, hfr1.1]; exact heq)]
                    exact findRecord_append hfind
                  · rcases hfr2.2 op hop with h1 | h1
                    · exact tagged _ hfr1.2 op h1
                    · exact Or.inr (h1 ▸ heq)
          · -- an existing record keyed by h
            have hr₂ : r₂.event_id = h := findRecord_eventId hfound
            by_cases hc : r₂.state = EventState.CONFIRMED
            · simp only [processEvent, if_neg hem, hfound, if_pos hc,
                Option.some.injEq, Prod.mk.injEq] at hres
              obtain ⟨rfl, rfl, rfl, rfl⟩ := hres
              exact ⟨hfind, fun op hop => Or.inl hop⟩
            · by_cases hsn : st ≤ now ∧ r₂.state ≠ EventState.STARTED
              · rcases hsb : startedBranch f p sends jobs mid h r₂ with _ | out
                · simp only [processEvent, if_neg hem, hfound, if_neg hc,
                    if_pos hsn, hsb] at hres
                  cases hres
                · obtain ⟨P, S, J, M⟩ := out
                  have hfr := startedBranch_frame hsb
                  simp only [processEvent, if_neg hem, hfound, if_neg hc,
                    if_pos hsn, hsb, Option.some.injEq, Prod.mk.injEq] at hres
                  obtain ⟨rfl, rfl, rfl, rfl⟩ := hres
                  obtain ⟨⟨rec1, hrec1, rfl⟩, hS⟩ := hfr
                  refine ⟨?_, tagged _ hS⟩
                  rw [findRecord_setRecord_ne (by rw [hrec1, hr₂]; exact heq)]
                  exact hfind
              · rcases ha : announceStep f sends jobs mid h st r₂ with _ | out1
                · simp only [processEvent, if_neg hem, hfound, if_neg hc,
                    if_neg hsn, ha] at hres
                  cases hres
                · obtain ⟨rec1, S1, J1, M1⟩ := out1
                  have hfr1 := announceStep_frame ha
                  rcases hw : waitingStep now f S1 J1 M1 h rec1 with _ | out2
                  · simp only [processEvent, if_neg hem, hfound, if_neg hc,
                      if_neg hsn, ha, hw] at hres
                    cases hres
                  · obtain ⟨rec2, S2, J2, M2⟩ := out2
                    have hfr2 := waitingStep_frame hw
                    simp only [processEvent, if_neg hem, hfound, if_neg hc,
                      if_neg hsn, ha, hw, Option.some.injEq, Prod.mk.injEq] at hres
                    obtain ⟨rfl, rfl, rfl, rfl⟩ := hres
                    refine ⟨?_, fun op hop => ?_⟩
                    · rw [findRecord_setRecord_ne
                        (by rw [hfr2.1, hfr1.1, hr₂]; exact heq)]
                      exact hfind
                    · rcases hfr2.2 op hop with h1 | h1
                      · exact tagged _ hfr1.2 op h1
                      · exact Or.inr (h1 ▸ heq)

/-- Over a whole tick, a `CONFIRMED` or `STARTED` record is never sent for
and never mutated. -/
lemma goTick_terminal (now : Int) (f : String → Bool) (hid : String)
    (r : SeenEvent)
    (hterm : r.state = EventState.CONFIRMED ∨ r.state = EventState.STARTED)
    (events : List CalEvent) :
    ∀ (p : Store) (sends : List SendOp) (jobs : List Job) (mid : Nat),
      findRecord p hid = some r →
      (∀ op ∈ (goTick now f (p, sends, jobs, mid) events).2.1,
          op ∈ sends ∨ op.event_id ≠ hid)
        ∧ ∀ s', (goTick now f (p, sends, jobs, mid) events).1 = some s' →
            findRecord s' hid = some r := by
  induction events with
  | nil =>
    intro p sends jobs mid hfind
    refine ⟨fun op hop => Or.inl hop, fun s' hs' => ?_⟩
    simp only [goTick, Option.some.injEq] at hs'
    subst hs'
    exact hfind
  | cons ev rest ih =>
    intro p sends jobs mid hfind
    rcases hpe : processEvent now f (p, sends, jobs, mid) ev with _ | acc'
    · simp only [goTick, hpe]
      exact ⟨fun op hop => Or.inl hop, fun s' hs' => by cases hs'⟩
    · obtain ⟨p₁, sends₁, jobs₁, mid₁⟩ := acc'
      have hstep := processEvent_terminal now f p sends jobs mid ev hid r
        hfind hterm p₁ sends₁ jobs₁ mid₁ hpe
      have hrest := ih p₁ sends₁ jobs₁ mid₁ hstep.1
      simp only [goTick, hpe]
      refine ⟨fun op hop => ?_, hrest.2⟩
      rcases hrest.1 op hop with h1 | h1
      · exact hstep.2 op h1
      · exact Or.inr h1

/-- A whole-tick corollary: a record in a terminal state gets no outbound
send and is not mutated, whatever events the tick processes. -/
lemma tick_terminal_inert
    (now : Int) (f : String → Bool) (s : Store) (events : List CalEvent)
    (hid : String) (r : SeenEvent)
    (hfind : findRecord s hid = some r)
    (hterm : r.state = EventState.CONFIRMED ∨ r.state = EventState.STARTED) :
    findRecord (check_and_notify now f s events).store hid = some r
      ∧ ∀ op ∈ (check_and_notify now f s events).sends, op.event_id ≠ hid := by
  have key := goTick_terminal now f hid r hterm events s [] [] 0 hfind
  unfold check_and_notify
  rcases hgo : goTick now f (s, [], [], 0) events with ⟨os, sendsF, jobsF⟩
  rw [hgo] at key
  rcases os with _ | s'
  · refine ⟨hfind, fun op hop => ?_⟩
    rcases key.1 op hop with h1 | h1
    · cases h1
    · exact h1
  · refine ⟨key.2 s' rfl, fun op hop => ?_⟩
    rcases key.1 op hop with h1 | h1
    · cases h1
    · exact h1

/-! ### C1: CONFIRMED records are skipped entirely by the polling path -/

/-- C1.  A tracked record in state `CONFIRMED` is never sent for and never
mutated by a poll tick of `check_and_notify`, whatever `now` is (i.e.
however many minutes remain before — or since — the event's start), and
whatever other events the tick processes. -/
theorem confirmed_record_tick_inert
    (now : Int) (f : String → Bool) (s : Store) (events : List CalEvent)
    (hid : String) (r : SeenEvent)
    (hfind : findRecord s hid = some r)
    (hconf : r.state = EventState.CONFIRMED) :
    findRecord (check_and_notify now f s events).store hid = some r
      ∧ ∀ op ∈ (check_and_notify now f s events).sends, op.event_id ≠ hid :=
  tick_terminal_inert now f s events hid r hfind (Or.inl hconf)

/-- Witness for C1: a concrete tick over a confirmed record whose event
started long ago produces no send for it and leaves it untouched. -/
theorem confirmed_record_tick_inert_witness :
    findRecord (check_and_notify 500 (fun _ => true)
        [⟨"f1", 100, EventState.CONFIRMED, some 7, "tpl", none⟩]
        [{ ev_hash := some "f1", start := some 100, calendar_name := "c",
           summary := "x" }]).store "f1"
      = some ⟨"f1", 100, EventState.CONFIRMED, some 7, "tpl", none⟩
    ∧ ∀ op ∈ (check_and_notify 500 (fun _ => true)
        [⟨"f1", 100, EventState.CONFIRMED, some 7, "tpl", none⟩]
        [{ ev_hash := some "f1", start := some 100, calendar_name := "c",
           summary := "x" }]).sends, op.event_id ≠ "f1" :=
  confirmed_record_tick_inert 500 (fun _ => true) _ _ "f1"
    ⟨"f1", 100, EventState.CONFIRMED, some 7, "tpl", none⟩ (by decide) rfl

/-! ### C4: the start transition -/

/-- C4 (amended: the record must be in neither of the terminal states
`STARTED` and `CONFIRMED`; the claim's "not yet STARTED" alone is refuted
by a `CONFIRMED` record, see the counterexample).  A poll tick processing a
live event with `start <= now` for such a record transitions it to
`STARTED` and sends exactly one "started" notification with no interactive
controls; and once a record is `STARTED`, no later tick sends anything for
that fingerprint again. -/
theorem started_event_single_notification
    (now st : Int) (f : String → Bool) (s : Store) (cn sm : String)
    (hid : String) (r : SeenEvent)
    (hne : hid ≠ "")
    (hfind : findRecord s hid = some r)
    (hnc : r.state ≠ EventState.CONFIRMED) (hns : r.state ≠ EventState.STARTED)
    (hnow : st ≤ now) (hsend : f hid = true) :
    (check_and_notify now f s
        [{ ev_hash := some hid, start := some st, calendar_name := cn,
           summary := sm }]).sends
        = [⟨hid, EventStatus.STARTED,
            build_message EventStatus.STARTED r.message_template, []⟩]
      ∧ findRecord (check_and_notify now f s
          [{ ev_hash := some hid, start := some st, calendar_name := cn,
             summary := sm }]).store hid
          = some { r with state := EventState.STARTED, message_id := some 0 }
      ∧ ∀ (now' : Int) (f' : String → Bool) (s' : Store)
          (events' : List CalEvent) (r' : SeenEvent),
          findRecord s' hid = some r' → r'.state = EventState.STARTED →
          ∀ op ∈ (check_and_notify now' f' s' events').sends,
            op.event_id ≠ hid := by
  have hcomp : check_and_notify now f s
      [{ ev_hash := some hid, start := some st, calendar_name := cn,
         summary := sm }]
      = ⟨setRecord s { r with state := EventState.STARTED, message_id := some 0 },
         [⟨hid, EventStatus.STARTED,
           build_message EventStatus.STARTED r.message_template, []⟩],
         [], false⟩ := by
    unfold check_and_notify goTick processEvent startedBranch
    simp only [if_neg hne, hfind, if_neg hnc, if_pos (And.intro hnow hns),
      hsend, if_true, goTick, List.nil_append]
  rw [hcomp]
  refine ⟨rfl, ?_, ?_⟩
  · exact findRecord_setRecord_self hfind (@findRecord_eventId s hid r hfind)
  · intro now' f' s' events' r' hfind' hstart' op hop
    exact (tick_terminal_inert now' f' s' events' hid r' hfind'
      (Or.inr hstart')).2 op hop

/-- Counterexample to C4 as literally stated: a `CONFIRMED` record is "not
yet STARTED" and its event has `start <= now`, yet the tick sends nothing
for it and does not transition it to `STARTED`. -/
theorem started_event_claim_counterexample :
    (check_and_notify 500 (fun _ => true)
        [⟨"a", 100, EventState.CONFIRMED, none, "t", none⟩]
        [{ ev_hash := some "a", start := some 100, calendar_name := "c",
           summary := "x" }]).sends = []
    ∧ findRecord (check_and_notify 500 (fun _ => true)
        [⟨"a", 100, EventState.CONFIRMED, none, "t", none⟩]
        [{ ev_hash := some "a", start := some 100, calendar_name := "c",
           summary := "x" }]).store "a"
        = some ⟨"a", 100, EventState.CONFIRMED, none, "t", none⟩ :=
  ⟨rfl, rfl⟩

/-- Witness for C4 at a concrete input: an `ANNOUNCED` record whose event
has started transitions to `STARTED` with exactly one button-less send. -/
theorem started_event_single_notification_witness :
    (check_and_notify 500 (fun _ => true)
        [⟨"a", 100, EventState.ANNOUNCED, some 0, "t", none⟩]
        [{ ev_hash := some "a", start := some 100, calendar_name := "c",
           summary := "x" }]).sends
      = [⟨"a", EventStatus.STARTED,
          build_message EventStatus.STARTED "t", []⟩] :=
  (started_event_single_notification 500 100 (fun _ => true)
    [⟨"a", 100, EventState.ANNOUNCED, some 0, "t", none⟩] "c" "x" "a"
    ⟨"a", 100, EventState.ANNOUNCED, some 0, "t", none⟩
    (by decide) (by decide) (by decide) (by decide) (by decide) rfl).1

/-! ### C5: the announce transition and the deferred auto-start -/

/-- C5.  A record in state `NEW` (pre-existing or created by this tick)
processed by a poll tick whose event has `start > now` is transitioned to
`ANNOUNCED` with one notification carrying exactly the two controls
"request custom reminder" (`notify:`) and "acknowledge" (`confirm:`), and a
one-shot job at the event's start instant is armed; when that deferred
action fires it re-checks the record and is a no-op if the record is
missing, `CONFIRMED` or `STARTED`, and otherwise forces the `STARTED`
transition. -/
theorem announce_and_arm_auto_start
    (now st : Int) (f : String → Bool) (s : Store) (cn sm hid : String)
    (hne : hid ≠ "")
    (hnew : ∀ r0, findRecord s hid = some r0 → r0.state = EventState.NEW)
    (hnow : ¬ st ≤ now)
    (hsend : f hid = true) :
    ((∃ tpl, (check_and_notify now f s [mkEvent hid st cn sm]).sends
        = [⟨hid, EventStatus.ANNOUNCED, build_message EventStatus.ANNOUNCED tpl,
            eventButtons hid⟩])
      ∧ (check_and_notify now f s [mkEvent hid st cn sm]).jobs = [⟨st, hid⟩]
      ∧ ∃ r', findRecord
            (check_and_notify now f s [mkEvent hid st cn sm]).store hid
            = some r'
          ∧ r'.state = EventState.ANNOUNCED)
    ∧ (∀ (et em : EditResult) (s' : Store), findRecord s' hid = none →
        auto_start_event et em s' hid = ⟨s', 0, false⟩)
    ∧ (∀ (et em : EditResult) (s' : Store) (r' : SeenEvent),
        findRecord s' hid = some r' →
        r'.state = EventState.CONFIRMED ∨ r'.state = EventState.STARTED →
        auto_start_event et em s' hid = ⟨s', 0, false⟩)
    ∧ (∀ (et em : EditResult) (s' : Store) (r' : SeenEvent),
        findRecord s' hid = some r' →
        r'.state ≠ EventState.CONFIRMED → r'.state ≠ EventState.STARTED →
        et ≠ EditResult.errOther → em ≠ EditResult.errOther →
        auto_start_event et em s' hid
          = ⟨setRecord s' { r' with state := EventState.STARTED }, 2, false⟩) := by
  refine ⟨?_, ?_, ?_, ?_⟩
  · -- the tick itself
    rcases hfound : findRecord s hid with _ | r0
    · -- record created fresh this tick
      have hcomp : check_and_notify now f s [mkEvent hid st cn sm]
          = ⟨setRecord
              (s ++ [freshRecord hid st (messageTemplate (mkEvent hid st cn sm))])
              { freshRecord hid st (messageTemplate (mkEvent hid st cn sm))
                  with state := EventState.ANNOUNCED, message_id := some 0 },
             [⟨hid, EventStatus.ANNOUNCED, build_message EventStatus.ANNOUNCED
                (messageTemplate (mkEvent hid st cn sm)), eventButtons hid⟩],
             [⟨st, hid⟩], false⟩ := by
        unfold check_and_notify goTick processEvent announceStep waitingStep
          freshRecord mkEvent
        simp only [if_neg hne, hfound, reduceCtorEq, ne_eq, not_false_eq_true,
          and_true, if_false, ite_false, if_neg hnow, if_pos rfl, hsend,
          if_true, goTick, List.nil_append]
      rw [hcomp]
      refine ⟨⟨_, rfl⟩, rfl,
        ⟨{ freshRecord hid st (messageTemplate (mkEvent hid st cn sm))
             with state := EventState.ANNOUNCED, message_id := some 0 },
         ?_, rfl⟩⟩
      have hf1 : findRecord
          (s ++ [freshRecord hid st (messageTemplate (mkEvent hid st cn sm))])
          hid
          = some (freshRecord hid st (messageTemplate (mkEvent hid st cn sm))) := by
        rw [findRecord_append_none hfound]
        simp [findRecord, freshRecord]
      exact findRecord_setRecord_self hf1 rfl
    · -- record existed already, in state NEW
      have hst0 : r0.state = EventState.NEW := hnew r0 hfound
      have hnc : ¬ r0.state = EventState.CONFIRMED := by
        rw [hst0]
        exact fun hx => EventState.noConfusion hx
      have hsn : ¬ (st ≤ now ∧ r0.state ≠ EventState.STARTED) :=
        fun hx => hnow hx.1
      have hcomp : check_and_notify now f s [mkEvent hid st cn sm]
          = ⟨setRecord s
               { r0 with state := EventState.ANNOUNCED, message_id := some 0 },
             [⟨hid, EventStatus.ANNOUNCED, build_message EventStatus.ANNOUNCED
                r0.message_template, eventButtons hid⟩],
             [⟨st, hid⟩], false⟩ := by
        unfold check_and_notify goTick processEvent announceStep waitingStep
          mkEvent
        simp only [if_neg hne, hfound, if_neg hnc, if_neg hsn, if_pos hst0,
          hsend, if_true, goTick, List.nil_append]
      rw [hcomp]
      exact ⟨⟨_, rfl⟩, rfl,
        ⟨{ r0 with state := EventState.ANNOUNCED, message_id := some 0 },
         findRecord_setRecord_self hfound (@findRecord_eventId s hid r0 hfound),
         rfl⟩⟩
  · intro et em s' hmiss
    unfold auto_start_event
    rw [hmiss]
  · intro et em s' r' hfind' hterm
    unfold auto_start_event
    simp only [hfind', if_pos hterm]
  · intro et em s' r' hfind' hnc' hns' het hem
    have hterm' : ¬ (r'.state = EventState.CONFIRMED
        ∨ r'.state = EventState.STARTED) := by
      rintro (hx | hx)
      exacts [hnc' hx, hns' hx]
    unfold auto_start_event
    rw [hfind']
    simp only [if_neg hterm']

/-- Witness for C5 at a concrete input: a tick over a fresh future event
arms the auto-start job at the event's start instant. -/
theorem announce_and_arm_auto_start_witness :
    (check_and_notify 0 (fun _ => true) [] [mkEvent "a" 100 "c" "x"]).jobs
      = [⟨100, "a"⟩] :=
  (announce_and_arm_auto_start 0 100 (fun _ => true) [] "c" "x" "a"
    (by decide) (fun _ h => Option.noConfusion h) (by decide) rfl).1.2.1

/-! ### C6: the WAITING follow-up -/

/-- C6 (amended: the event's start must still be in the future; at
`start <= now` the start transition takes precedence, see the
counterexample).  For a `WAITING` record with `next_notify_at = t`, a poll
tick with `now >= t` (and a delivery that succeeds) sends exactly one
follow-up notification with both controls and clears `next_notify_at`,
leaving the state `WAITING`; a tick with `now < t` sends nothing for the
record and leaves it unchanged. -/
theorem waiting_follow_up
    (now st t : Int) (f : String → Bool) (s : Store) (cn sm hid : String)
    (r : SeenEvent)
    (hne : hid ≠ "") (hfind : findRecord s hid = some r)
    (hw : r.state = EventState.WAITING) (hnn : r.next_notify_at = some t)
    (hnow : ¬ st ≤ now) :
    (now ≥ t → f hid = true →
        (check_and_notify now f s [mkEvent hid st cn sm]).sends
          = [⟨hid, EventStatus.SOON,
              build_message EventStatus.SOON r.message_template,
              eventButtons hid⟩]
        ∧ findRecord (check_and_notify now f s [mkEvent hid st cn sm]).store hid
            = some { r with message_id := some 0, next_notify_at := none }
        ∧ SeenEvent.state
            { r with message_id := some 0, next_notify_at := none }
            = EventState.WAITING)
    ∧ (¬ now ≥ t →
        (check_and_notify now f s [mkEvent hid st cn sm]).sends = []
        ∧ findRecord (check_and_notify now f s [mkEvent hid st cn sm]).store hid
            = some r) := by
  have hnc : ¬ r.state = EventState.CONFIRMED := by
    rw [hw]
    exact fun hx => EventState.noConfusion hx
  have hsn : ¬ (st ≤ now ∧ r.state ≠ EventState.STARTED) :=
    fun hx => hnow hx.1
  have hna : ¬ r.state = EventState.NEW := by
    rw [hw]
    exact fun hx => EventState.noConfusion hx
  constructor
  · intro hget hsend
    have hcomp : check_and_notify now f s [mkEvent hid st cn sm]
        = ⟨setRecord s
             { r with message_id := some 0, next_notify_at := none },
           [⟨hid, EventStatus.SOON,
             build_message EventStatus.SOON r.message_template,
             eventButtons hid⟩],
           [], false⟩ := by
      unfold check_and_notify goTick processEvent announceStep waitingStep
        mkEvent
      simp only [if_neg hne, hfind, if_neg hnc, if_neg hsn, if_neg hna]
      simp only [hw, hnn, if_pos hget, hsend, if_true, goTick,
        List.nil_append]
    rw [hcomp]
    exact ⟨rfl, findRecord_setRecord_self hfind
      (@findRecord_eventId s hid r hfind), hw⟩
  · intro hlt
    have hcomp : check_and_notify now f s [mkEvent hid st cn sm]
        = ⟨setRecord s r, [], [], false⟩ := by
      unfold check_and_notify goTick processEvent announceStep waitingStep
        mkEvent
      simp only [if_neg hne, hfind, if_neg hnc, if_neg hsn, if_neg hna]
      simp only [hw, hnn, if_neg hlt, goTick]
    rw [hcomp]
    exact ⟨rfl, findRecord_setRecord_self hfind
      (@findRecord_eventId s hid r hfind)⟩

/-- Counterexample to C6 as literally stated: a `WAITING` record with a due
`next_notify_at` whose event has already started gets the button-less
"started" notification instead of the follow-up, its `next_notify_at` is
not cleared, and its state does not remain `WAITING`. -/
theorem waiting_follow_up_claim_counterexample :
    ((check_and_notify 500 (fun _ => true)
        [⟨"a", 100, EventState.WAITING, some 3, "t", some 50⟩]
        [mkEvent "a" 100 "c" "x"]).sends.map SendOp.buttons = [[]])
    ∧ findRecord (check_and_notify 500 (fun _ => true)
        [⟨"a", 100, EventState.WAITING, some 3, "t", some 50⟩]
        [mkEvent "a" 100 "c" "x"]).store "a"
        = some ⟨"a", 100, EventState.STARTED, some 0, "t", some 50⟩ :=
  ⟨rfl, rfl⟩

/-- Witness for C6 at a concrete input: a due `WAITING` record with a
future start gets the follow-up with both controls. -/
theorem waiting_follow_up_witness :
    (check_and_notify 500 (fun _ => true)
        [⟨"a", 900, EventState.WAITING, some 3, "t", some 400⟩]
        [mkEvent "a" 900 "c" "x"]).sends
      = [⟨"a", EventStatus.SOON, build_message EventStatus.SOON "t",
          eventButtons "a"⟩] :=
  ((waiting_follow_up 500 900 400 (fun _ => true)
    [⟨"a", 900, EventState.WAITING, some 3, "t", some 400⟩] "c" "x" "a"
    ⟨"a", 900, EventState.WAITING, some 3, "t", some 400⟩
    (by decide) rfl rfl rfl (by decide)).1 (by decide) rfl).1

/-! ### C2: double acknowledge is NOT safe in the code -/

/-- C2 (code bug demonstration).  Acknowledging an already-acknowledged
fingerprint makes `confirm_callback` re-edit the message with the same
confirmed text; when the delivery sink answers with the "message content
unchanged" `BadRequest`, `confirm_callback` has no handler for it — the
exception propagates out of the handler (first conjunct), unlike
`_auto_start_event`, which swallows exactly that error class on the same
kind of redundant edit (third conjunct).  No duplicate confirmation is
persisted (second conjunct) only because the commit is skipped. -/
theorem double_confirm_raises :
    (confirm_callback EditResult.errNotModified EditResult.ok
        [⟨"a", 100, EventState.CONFIRMED, some 3, "t", none⟩] "a").raised
      = true
    ∧ (confirm_callback EditResult.errNotModified EditResult.ok
        [⟨"a", 100, EventState.CONFIRMED, some 3, "t", none⟩] "a").store
      = [⟨"a", 100, EventState.CONFIRMED, some 3, "t", none⟩]
    ∧ (auto_start_event EditResult.errNotModified EditResult.errNotModified
        [⟨"b", 100, EventState.ANNOUNCED, some 3, "t", none⟩] "b").raised
      = false :=
  ⟨rfl, rfl, rfl⟩

/-! ### C3: one failing send aborts the whole tick -/

/-- C3 (code bug demonstration).  The event loop of `check_and_notify` has
no per-event error isolation: with two fresh future events `a` and `b`
where only `a`'s send fails, the tick aborts — `b` is never processed, no
notification at all goes out, and nothing is persisted (the commit is
skipped, so even work already done is rolled back); with a healthy sink
the very same tick announces both events. -/
theorem failing_send_aborts_tick :
    (check_and_notify 0 (fun h => h != "a") []
        [mkEvent "a" 100 "c" "e1", mkEvent "b" 100 "c" "e2"]).aborted = true
    ∧ (check_and_notify 0 (fun h => h != "a") []
        [mkEvent "a" 100 "c" "e1", mkEvent "b" 100 "c" "e2"]).sends = []
    ∧ (check_and_notify 0 (fun h => h != "a") []
        [mkEvent "a" 100 "c" "e1", mkEvent "b" 100 "c" "e2"]).store = []
    ∧ (check_and_notify 0 (fun _ => true) []
        [mkEvent "a" 100 "c" "e1", mkEvent "b" 100 "c" "e2"]).sends.length
      = 2
    ∧ ((check_and_notify 0 (fun _ => true) []
        [mkEvent "a" 100 "c" "e1", mkEvent "b" 100 "c" "e2"]).store.map
          SeenEvent.event_id) = ["a", "b"] :=
  ⟨rfl, rfl, rfl, rfl, rfl⟩

/-! ### C7: the custom-reminder menu -/

/-- C7 (amended: the zero point is offered always, even when the event has
already passed — the code's filter keeps `m == 0` unconditionally — and the
"event starting now" feedback can only fire when the configured interval
list has no zero point and no point at or below the minutes remaining).
The menu offers exactly the configured points `m` with `m = 0` or
`m <= minutes_left`; a missing record is a complete no-op. -/
theorem notify_menu_offers_valid_points
    (intervals : List Int) (ttl now : Int) (s : Store) (hid : String) :
    (findRecord s hid = none →
        notify_callback intervals ttl now s hid = ⟨none, false, none⟩)
    ∧ ∀ r, findRecord s hid = some r →
        (valid_intervals intervals (minutes_left r.start now) = [] →
          notify_callback intervals ttl now s hid = ⟨none, true, none⟩)
        ∧ (valid_intervals intervals (minutes_left r.start now) ≠ [] →
          notify_callback intervals ttl now s hid
            = ⟨some ((valid_intervals intervals
                  (minutes_left r.start now)).map
                (fun m => "notify_set:" ++ hid ++ ":" ++ toString m)),
               false, some (now + ttl)⟩) := by
  constructor
  · intro hmiss
    unfold notify_callback
    rw [hmiss]
  · intro r hfind
    constructor
    · intro hempty
      unfold notify_callback
      simp only [hfind]
      rw [hempty]
      simp
    · intro hne
      unfold notify_callback
      simp only [hfind]
      rw [if_neg hne]

/-- Counterexample to C7 as literally stated: for an event that passed two
minutes ago, the zero point is still offered (the menu is the single
"at event time" button) and no "event starting now" feedback is shown. -/
theorem notify_menu_claim_counterexample :
    (notify_callback NOTIFY_INTERVALS 30 120
        [⟨"a", 0, EventState.ANNOUNCED, some 3, "t", none⟩] "a").keyboard
      = some ["notify_set:a:0"]
    ∧ (notify_callback NOTIFY_INTERVALS 30 120
        [⟨"a", 0, EventState.ANNOUNCED, some 3, "t", none⟩] "a").alerted
      = false :=
  ⟨rfl, rfl⟩

/-- Witness for C7 at a concrete input: 42 minutes before start, the menu
offers exactly the points 30, 15, 10, 5 and 0 of the default schedule. -/
theorem notify_menu_offers_valid_points_witness :
    notify_callback NOTIFY_INTERVALS 30 0
        [⟨"a", 2520, EventState.ANNOUNCED, some 3, "t", none⟩] "a"
      = ⟨some ["notify_set:a:30", "notify_set:a:15", "notify_set:a:10",
              "notify_set:a:5", "notify_set:a:0"], false, some 30⟩ :=
  ((notify_menu_offers_valid_points NOTIFY_INTERVALS 30 0
      [⟨"a", 2520, EventState.ANNOUNCED, some 3, "t", none⟩] "a").2
    ⟨"a", 2520, EventState.ANNOUNCED, some 3, "t", none⟩ rfl).2 (by decide)

/-! ### C8: the notification point schedule -/

/-- Halve while still above the 60-minute floor.  The first argument is
fuel bounding the number of halvings (each halving strictly shrinks a
value that stays above 60, so the lead window itself always suffices). -/
def specGeometricHalve : Nat → Nat → List Nat
  | 0, _ => []
  | fuel + 1, x =>
    if x / 2 > 60 then x / 2 :: specGeometricHalve fuel (x / 2) else []

/-- The geometric leg of the point schedule §4.2 of the spec, defined from
the spec's words for comparison with the code: the lead window followed by
its repeated halvings down to the 60-minute floor. -/
def specGeometricLeg (lead : Nat) : List Nat :=
  lead :: specGeometricHalve lead lead

/-- `schedule(lead)` as the spec words it. -/
def specSchedule (lead : Nat) : List Nat :=
  ((specGeometricLeg lead ++ [30, 15, 10, 5, 0]).dedup).insertionSort (· ≥ ·)

/-- C8 (amended: the code computes no schedule from the lead window at all;
`NOTIFY_INTERVALS` is a fixed, environment-configured list whose default is
`[60, 30, 15, 10, 5, 0]` — descending, duplicate-free, containing the
fine-grained tail and the 60-minute point.  It coincides with the spec's
`schedule(60)` but not with `schedule(120)`, the lead window implied by the
default `AHEAD_HOUR = 2`). -/
theorem notify_intervals_fixed_default :
    NOTIFY_INTERVALS = [60, 30, 15, 10, 5, 0]
    ∧ List.Sorted (· > ·) NOTIFY_INTERVALS
    ∧ NOTIFY_INTERVALS.Nodup
    ∧ (∀ m ∈ ([30, 15, 10, 5, 0] : List Int), m ∈ NOTIFY_INTERVALS)
    ∧ NOTIFY_INTERVALS = (specSchedule 60).map Int.ofNat
    ∧ NOTIFY_INTERVALS ≠ (specSchedule 120).map Int.ofNat := by
  refine ⟨rfl, ?_, by decide, by decide, by decide, by decide⟩
  decide

/-- Witness for C8 at a concrete input: the 30-minute tail point is among
the configured intervals. -/
theorem notify_intervals_fixed_default_witness : (30 : Int) ∈ NOTIFY_INTERVALS :=
  notify_intervals_fixed_default.2.2.2.1 30 (by decide)

/-- Counterexample to C8 as literally stated: the spec's
`schedule(120) = [120, 30, 15, 10, 5, 0]`, but the code's schedule points
are the fixed `NOTIFY_INTERVALS`, which is a different list — it lacks the
120 point (and no function of the lead window is computed anywhere). -/
theorem schedule_claim_counterexample :
    specSchedule 120 = [120, 30, 15, 10, 5, 0]
    ∧ NOTIFY_INTERVALS ≠ (specSchedule 120).map Int.ofNat
    ∧ (120 : Int) ∉ NOTIFY_INTERVALS := by
  refine ⟨by decide, by decide, by decide⟩

/-! ### Event fingerprinting

`google_calendar.list_events_between` computes
`hashlib.md5(f"{e.get('id')}_{start_dt}".encode()).hexdigest()[:16]`.
`hashlib.md5` implements RFC 1321, embedded below over byte lists, with
arithmetic on `Nat` reduced mod `2^32` where the algorithm overflows. -/

/-- Truncation to 32 bits. -/
def w32 (n : Nat) : Nat := n % 4294967296

/-- 32-bit left rotation (RFC 1321 `<<<`). -/
def rotl32 (x s : Nat) : Nat :=
  (((x % 4294967296) <<< s) % 4294967296) ||| ((x % 4294967296) >>> (32 - s))

/-- The 64 MD5 additive constants `K[i] = floor(2^32 * |sin(i+1)|)`. -/
def md5K : List Nat :=
  [0xd76aa478, 0xe8c7b756, 0x242070db, 0xc1bdceee,
   0xf57c0faf, 0x4787c62a, 0xa8304613, 0xfd469501,
   0x698098d8, 0x8b44f7af, 0xffff5bb1, 0x895cd7be,
   0x6b901122, 0xfd987193, 0xa679438e, 0x49b40821,
   0xf61e2562, 0xc040b340, 0x265e5a51, 0xe9b6c7aa,
   0xd62f105d, 0x02441453, 0xd8a1e681, 0xe7d3fbc8,
   0x21e1cde6, 0xc33707d6, 0xf4d50d87, 0x455a14ed,
   0xa9e3e905, 0xfcefa3f8, 0x676f02d9, 0x8d2a4c8a,
   0xfffa3942, 0x8771f681, 0x6d9d6122, 0xfde5380c,
   0xa4beea44, 0x4bdecfa9, 0xf6bb4b60, 0xbebfbc70,
   0x289b7ec6, 0xeaa127fa, 0xd4ef3085, 0x04881d05,
   0xd9d4d039, 0xe6db99e5, 0x1fa27cf8, 0xc4ac5665,
   0xf4292244, 0x432aff97, 0xab9423a7, 0xfc93a039,
   0x655b59c3, 0x8f0ccc92, 0xffeff47d, 0x85845dd1,
   0x6fa87e4f, 0xfe2ce6e0, 0xa3014314, 0x4e0811a1,
   0xf7537e82, 0xbd3af235, 0x2ad7d2bb, 0xeb86d391]

/-- The per-step left-rotation amounts. -/
def md5S : List Nat :=
  [7, 12, 17, 22, 7, 12, 17, 22, 7, 12, 17, 22, 7, 12, 17, 22,
   5, 9, 14, 20, 5, 9, 14, 20, 5, 9, 14, 20, 5, 9, 14, 20,
   4, 11, 16, 23, 4, 11, 16, 23, 4, 11, 16, 23, 4, 11, 16, 23,
   6, 10, 15, 21, 6, 10, 15, 21, 6, 10, 15, 21, 6, 10, 15, 21]

/-- The four round functions F, G, H, I (bitwise NOT is XOR with the
all-ones 32-bit word). -/
def md5F (i b c d : Nat) : Nat :=
  if i < 16 then (b &&& c) ||| ((b ^^^ 4294967295) &&& d)
  else if i < 32 then (d &&& b) ||| ((d ^^^ 4294967295) &&& c)
  else if i < 48 then b ^^^ c ^^^ d
  else c ^^^ (b ||| (d ^^^ 4294967295))

/-- The message-word index selection per step. -/
def md5G (i : Nat) : Nat :=
  if i < 16 then i
  else if i < 32 then (5 * i + 1) % 16
  else if i < 48 then (3 * i + 5) % 16
  else (7 * i) % 16

/-- One of the 64 steps of a chunk. -/
def md5Round (M : List Nat) (st : Nat × Nat × Nat × Nat) (i : Nat) :
    Nat × Nat × Nat × Nat :=
  let (a, b, c, d) := st
  let nb := w32 (b + rotl32 (a + md5F i b c d + md5K.getD i 0
    + M.getD (md5G i) 0) (md5S.getD i 0))
  (d, nb, b, c)

/-- Process one 16-word chunk and add the result onto the running state. -/
def md5Chunk (st : Nat × Nat × Nat × Nat) (M : List Nat) :
    Nat × Nat × Nat × Nat :=
  let (a, b, c, d) := (List.range 64).foldl (md5Round M) st
  (w32 (st.1 + a), w32 (st.2.1 + b), w32 (st.2.2.1 + c), w32 (st.2.2.2 + d))

/-- Little-endian bytes to 32-bit words. -/
def toWordsLE : List Nat → List Nat
  | b0 :: b1 :: b2 :: b3 :: rest =>
    (b0 + 256 * b1 + 65536 * b2 + 16777216 * b3) :: toWordsLE rest
  | _ => []

/-- Split into 64-byte chunks.  The first argument is fuel (the list's
length suffices) keeping the recursion structural. -/
def chunks64 : Nat → List Nat → List (List Nat)
  | 0, _ => []
  | _, [] => []
  | fuel + 1, x :: rest => ((x :: rest).take 64) :: chunks64 fuel (rest.drop 63)

/-- A 64-bit number as eight little-endian bytes. -/
def le64Bytes (n : Nat) : List Nat :=
  [n % 256, n / 256 % 256, n / 65536 % 256, n / 16777216 % 256,
   n / 4294967296 % 256, n / 1099511627776 % 256,
   n / 281474976710656 % 256, n / 72057594037927936 % 256]

/-- MD5 padding: `0x80`, zeros to 56 mod 64, the bit length as 64 bits
little-endian. -/
def md5Pad (msg : List Nat) : List Nat :=
  msg ++ [128] ++ List.replicate ((120 - ((msg.length + 1) % 64)) % 64) 0
    ++ le64Bytes (8 * msg.length)

/-- The RFC 1321 initial state. -/
def md5Init : Nat × Nat × Nat × Nat :=
  (0x67452301, 0xefcdab89, 0x98badcfe, 0x10325476)

/-- The four 32-bit output words of MD5 over a byte list. -/
def md5Words (msg : List Nat) : Nat × Nat × Nat × Nat :=
  ((chunks64 (md5Pad msg).length (md5Pad msg)).map toWordsLE).foldl
    md5Chunk md5Init

/-- Lower-case hex digit. -/
def hexDigit (n : Nat) : Char :=
  if n < 10 then Char.ofNat (48 + n) else Char.ofNat (87 + n)

/-- A byte as two hex characters. -/
def byteHex (b : Nat) : List Char := [hexDigit (b / 16 % 16), hexDigit (b % 16)]

/-- A 32-bit word as its four little-endian bytes. -/
def wordLEBytes (w : Nat) : List Nat :=
  [w % 256, w / 256 % 256, w / 65536 % 256, w / 16777216 % 256]

/-- The 16 digest bytes in output order (words A, B, C, D, each
little-endian). -/
def md5DigestBytes (msg : List Nat) : List Nat :=
  wordLEBytes (md5Words msg).1 ++ wordLEBytes (md5Words msg).2.1
    ++ wordLEBytes (md5Words msg).2.2.1 ++ wordLEBytes (md5Words msg).2.2.2

/-- `hashlib.md5(msg).hexdigest()`: 32 lower-case hex characters. -/
def md5hex (msg : List Nat) : String :=
  ⟨((md5DigestBytes msg).map byteHex).flatten⟩

/-- UTF-8 encoding of one character (`str.encode()`). -/
def utf8Char (c : Char) : List Nat :=
  let n := c.toNat
  if n < 128 then [n]
  else if n < 2048 then [192 + n / 64, 128 + n % 64]
  else if n < 65536 then [224 + n / 4096, 128 + n / 64 % 64, 128 + n % 64]
  else [240 + n / 262144, 128 + n / 4096 % 64, 128 + n / 64 % 64, 128 + n % 64]

/-- UTF-8 encoding of a string. -/
def utf8 (s : String) : List Nat := (s.data.map utf8Char).flatten

/-- The bytes contributed by `str(start_dt)` in the hashed f-string,
modelled as the decimal digits of the start instant.  Like the real ISO
rendering, this is injective: distinct instants render as distinct byte
strings.  (The model's instant domain is all of `Nat`; the program's
datetimes range over a bounded set of renderings, so facts that depend on
the domain being unbounded are not transferred to the program.) -/
def formatInstantBytes (t : Nat) : List Nat :=
  ((Nat.digits 10 t).map (fun d => 48 + d)).reverse

/-- The hashed preimage `f"{e.get('id')}_{start_dt}".encode()`. -/
def fingerprintPreimage (id : String) (t : Nat) : List Nat :=
  utf8 id ++ [95] ++ formatInstantBytes t

/-- The event fingerprint: `hashlib.md5(...).hexdigest()[:16]`
(google_calendar.py lines 117–120). -/
def fingerprint (id : String) (t : Nat) : String :=
  ⟨(md5hex (fingerprintPreimage id t)).data.take 16⟩

lemma md5Chunk_lt (st : Nat × Nat × Nat × Nat) (M : List Nat) :
    (md5Chunk st M).1 < 4294967296 ∧ (md5Chunk st M).2.1 < 4294967296
      ∧ (md5Chunk st M).2.2.1 < 4294967296
      ∧ (md5Chunk st M).2.2.2 < 4294967296 := by
  rcases hr : (List.range 64).foldl (md5Round M) st with ⟨a, b, c, d⟩
  simp only [md5Chunk, hr, w32]
  exact ⟨Nat.mod_lt _ (by norm_num), Nat.mod_lt _ (by norm_num),
    Nat.mod_lt _ (by norm_num), Nat.mod_lt _ (by norm_num)⟩

lemma md5Words_lt (msg : List Nat) :
    (md5Words msg).1 < 4294967296 ∧ (md5Words msg).2.1 < 4294967296
      ∧ (md5Words msg).2.2.1 < 4294967296
      ∧ (md5Words msg).2.2.2 < 4294967296 := by
  have key : ∀ (l : List (List Nat)) (st : Nat × Nat × Nat × Nat),
      st.1 < 4294967296 → st.2.1 < 4294967296 → st.2.2.1 < 4294967296 →
      st.2.2.2 < 4294967296 →
      (l.foldl md5Chunk st).1 < 4294967296
        ∧ (l.foldl md5Chunk st).2.1 < 4294967296
        ∧ (l.foldl md5Chunk st).2.2.1 < 4294967296
        ∧ (l.foldl md5Chunk st).2.2.2 < 4294967296 := by
    intro l
    induction l with
    | nil => exact fun st h1 h2 h3 h4 => ⟨h1, h2, h3, h4⟩
    | cons M rest ih =>
      intro st _ _ _ _
      have hc := md5Chunk_lt st M
      simpa using ih (md5Chunk st M) hc.1 hc.2.1 hc.2.2.1 hc.2.2.2
  unfold md5Words
  exact key _ md5Init (by decide) (by decide) (by decide) (by decide)

lemma md5hex_data_length (msg : List Nat) : (md5hex msg).data.length = 32 := by
  show (((md5DigestBytes msg).map byteHex).flatten).length = 32
  unfold md5DigestBytes wordLEBytes byteHex
  simp

lemma fingerprint_length (id : String) (t : Nat) :
    (fingerprint id t).length = 16 := by
  show ((md5hex (fingerprintPreimage id t)).data.take 16).length = 16
  rw [List.length_take, md5hex_data_length]
  omega

lemma formatInstantBytes_injective : Function.Injective formatInstantBytes := by
  have hmap : ∀ l : List Nat,
      (l.map (fun d => 48 + d)).map (fun b => b - 48) = l := by
    intro l
    induction l with
    | nil => rfl
    | cons x xs ih => simp [ih]
  have key : ∀ t, Nat.ofDigits 10
      (((formatInstantBytes t).reverse).map (fun b => b - 48)) = t := by
    intro t
    unfold formatInstantBytes
    rw [List.reverse_reverse, hmap, Nat.ofDigits_digits]
  intro a b hab
  have ha := key a
  rw [hab, key b] at ha
  exact ha.symm

lemma fingerprintPreimage_injective (id : String) :
    Function.Injective (fingerprintPreimage id) := by
  intro a b hab
  unfold fingerprintPreimage at hab
  have h2 := congrArg (List.drop (utf8 id ++ [95]).length) hab
  rw [List.drop_left, List.drop_left] at h2
  exact formatInstantBytes_injective h2

end CalendarBot
